import Mathlib

/-!
Verification of the artifact-registry service against its specification.

The development shallowly embeds the Go sources: the SHA-256 hashing and
hex encoding used by the blob backends, the filesystem blob store
(`registry/filesystemRegistry/registry.go`), the relational metadata store
(`orm/metadata.go`, `orm/model.go`) with the relevant GORM primitive
semantics made explicit, and the service facade (`registry` package:
upload, pull, get, delete, add/remove tag, validation and error
translation). Machine integers are modelled as `Nat` with explicit
`% 2 ^ 32` where Go's `uint32` arithmetic overflows; fallible Go code
returns `Except`.
-/

namespace ArtifactRegistry

/-! ### SHA-256 (crypto/sha256, as used by `StoreArtifact`) -/

/-- Modulus of Go's `uint32`. -/
def w32 : Nat := 4294967296

/-- Addition on `uint32` values. -/
def add32 (a b : Nat) : Nat := (a + b) % w32

/-- Right rotation of a 32-bit word by `n` bits. -/
def rotr32 (n x : Nat) : Nat := (x / 2 ^ n) + (x % 2 ^ n) * 2 ^ (32 - n)

/-- Logical right shift by `n` bits. -/
def shr32 (n x : Nat) : Nat := x / 2 ^ n

/-- Bitwise complement of a 32-bit word. -/
def not32 (x : Nat) : Nat := Nat.xor x 4294967295

/-- Running hash state of SHA-256: eight 32-bit words. -/
structure H8 where
  a : Nat
  b : Nat
  c : Nat
  d : Nat
  e : Nat
  f : Nat
  g : Nat
  h : Nat
deriving DecidableEq

/-- Initial SHA-256 hash state (FIPS 180-4), written in decimal. -/
def h0 : H8 :=
  ⟨1779033703, 3144134277, 1013904242, 2773480762,
   1359893119, 2600822924, 528734635, 1541459225⟩

/-- Round constants of SHA-256 (FIPS 180-4), written in decimal. -/
def kConst : List Nat :=
  [1116352408, 1899447441, 3049323471, 3921009573, 961987163, 1508970993,
   2453635748, 2870763221, 3624381080, 310598401, 607225278, 1426881987,
   1925078388, 2162078206, 2614888103, 3248222580, 3835390401, 4022224774,
   264347078, 604807628, 770255983, 1249150122, 1555081692, 1996064986,
   2554220882, 2821834349, 2952996808, 3210313671, 3336571891, 3584528711,
   113926993, 338241895, 666307205, 773529912, 1294757372, 1396182291,
   1695183700, 1986661051, 2177026350, 2456956037, 2730485921, 2820302411,
   3259730800, 3345764771, 3516065817, 3600352804, 4094571909, 275423344,
   430227734, 506948616, 659060556, 883997877, 958139571, 1322822218,
   1537002063, 1747873779, 1955562222, 2024104815, 2227730452, 2361852424,
   2428436474, 2756734187, 3204031479, 3329325298]

/-- Message-schedule sigma 0. -/
def ssig0 (x : Nat) : Nat :=
  Nat.xor (Nat.xor (rotr32 7 x) (rotr32 18 x)) (shr32 3 x)

/-- Message-schedule sigma 1. -/
def ssig1 (x : Nat) : Nat :=
  Nat.xor (Nat.xor (rotr32 17 x) (rotr32 19 x)) (shr32 10 x)

/-- Round function Sigma 0. -/
def bsig0 (x : Nat) : Nat :=
  Nat.xor (Nat.xor (rotr32 2 x) (rotr32 13 x)) (rotr32 22 x)

/-- Round function Sigma 1. -/
def bsig1 (x : Nat) : Nat :=
  Nat.xor (Nat.xor (rotr32 6 x) (rotr32 11 x)) (rotr32 25 x)

/-- Extension of the message schedule: `win` is the sliding window of the
last 16 words (oldest first); the result lists the further words. -/
def schedExt (win : List Nat) : Nat → List Nat
  | 0 => []
  | n + 1 =>
    let next := (win.getD 0 0 + ssig0 (win.getD 1 0) + win.getD 9 0 +
      ssig1 (win.getD 14 0)) % w32
    next :: schedExt (win.tail ++ [next]) n

/-- One SHA-256 compression round for round constant and schedule word `kw`. -/
def sha256round (st : H8) (kw : Nat × Nat) : H8 :=
  let t1 := (st.h + bsig1 st.e + Nat.xor (Nat.land st.e st.f)
    (Nat.land (not32 st.e) st.g) + kw.1 + kw.2) % w32
  let t2 := (bsig0 st.a + Nat.xor (Nat.xor (Nat.land st.a st.b)
    (Nat.land st.a st.c)) (Nat.land st.b st.c)) % w32
  ⟨(t1 + t2) % w32, st.a, st.b, st.c, (st.d + t1) % w32, st.e, st.f, st.g⟩

/-- Compression of one 16-word block into the running hash state. -/
def compress (st : H8) (block : List Nat) : H8 :=
  let w := block ++ schedExt block 48
  let r := (kConst.zip w).foldl sha256round st
  ⟨add32 st.a r.a, add32 st.b r.b, add32 st.c r.c, add32 st.d r.d,
   add32 st.e r.e, add32 st.f r.f, add32 st.g r.g, add32 st.h r.h⟩

/-- Packing of a byte stream into big-endian 32-bit words. -/
def toWords : List Nat → List Nat
  | a :: b :: c :: d :: rest =>
    ((a % 256) * 16777216 + (b % 256) * 65536 + (c % 256) * 256 + d % 256) ::
      toWords rest
  | _ => []

/-- Grouping of the word stream into 16-word blocks. -/
def toBlocks : List Nat → List (List Nat)
  | w0 :: w1 :: w2 :: w3 :: w4 :: w5 :: w6 :: w7 ::
    w8 :: w9 :: w10 :: w11 :: w12 :: w13 :: w14 :: w15 :: rest =>
    [w0, w1, w2, w3, w4, w5, w6, w7, w8, w9, w10, w11, w12, w13, w14, w15] ::
      toBlocks rest
  | _ => []

/-- Big-endian encoding of `v` in `n` bytes. -/
def beBytes : Nat → Nat → List Nat
  | 0, _ => []
  | n + 1, v => (v / 2 ^ (8 * n)) % 256 :: beBytes n v

/-- Padding of SHA-256: append `0x80`, zeros up to 56 mod 64, then the bit
length in 8 big-endian bytes. -/
def pad (msg : List Nat) : List Nat :=
  let n := msg.length
  let z := (64 + 56 - (n + 1) % 64) % 64
  msg ++ 0x80 :: List.replicate z 0 ++ beBytes 8 (8 * n)

/-- Big-endian byte decomposition of a 32-bit word. -/
def wordBytes (v : Nat) : List Nat :=
  [(v / 16777216) % 256, (v / 65536) % 256, (v / 256) % 256, v % 256]

/-- Digest of SHA-256 over a byte sequence, as 32 bytes. -/
def sha256 (msg : List Nat) : List Nat :=
  let st := (toBlocks (toWords (pad msg))).foldl compress h0
  wordBytes st.a ++ wordBytes st.b ++ wordBytes st.c ++ wordBytes st.d ++
    wordBytes st.e ++ wordBytes st.f ++ wordBytes st.g ++ wordBytes st.h

/-- Sixteen lowercase hexadecimal digits. -/
def hexDigits : List Char := "0123456789abcdef".data

/-- Hexadecimal digit for a value below 16. -/
def hexChar (n : Nat) : Char := hexDigits.getD n '0'

/-- Two lowercase hex characters encoding one byte. -/
def byteHex (b : Nat) : List Char := [hexChar (b / 16 % 16), hexChar (b % 16)]

/-- Lowercase hex encoding of a byte list, as `hex.EncodeToString` does. -/
def hexEncode (bs : List Nat) : String := String.mk (bs.flatMap byteHex)

/-- Version hash as computed by the blob backends: lowercase hex encoding
of the SHA-256 of the stored bytes. -/
def sha256hex (msg : List Nat) : String := hexEncode (sha256 msg)

/-! ### Chunked streaming

The pull loop slices content into pieces of `ChunkSize` bytes
(`part_003`, `PullArtifact`), and the filesystem store loop reads the
upload pipe through a `ChunkSize` buffer
(`registry/filesystemRegistry/registry.go`, `StoreArtifact`). Both are
embedded through `chunksOf`, written with a structural fuel so that it
evaluates by kernel reduction; `chunksOf_eq` below shows the fuel is
irrelevant. -/

/-- Chunk size used by the pull stream and the store read buffer:
3 MiB (`ChunkSize` constant in `part_003`). -/
def ChunkSize : Nat := 1024 * 1024 * 3

/-- Fueled worker for `chunksOf`. -/
def chunksGo (cs : Nat) : Nat → List α → List (List α)
  | _, [] => []
  | 0, _ :: _ => []
  | fuel + 1, x :: xs => (x :: xs).take cs :: chunksGo cs fuel ((x :: xs).drop cs)

/-- Content split into consecutive chunks of `cs` bytes, the last chunk
short; this is the sequence produced by the pull send loop. -/
def chunksOf (cs : Nat) (l : List α) : List (List α) := chunksGo cs l.length l

/-! ### Data model

`FQN` mirrors `proto_gen.FullyQualifiedName`; `ArtifactRow` and `TagRow`
mirror the GORM models in `orm/model.go` (composite primary keys
`(source, author, name, hash)` and `(source, author, name, hash, tag_name)`;
`created_at` is wall time and not modelled). -/

structure FQN where
  source : String
  author : String
  name   : String
deriving DecidableEq

/-- Row of the `artifacts` table (`orm/model.go`). -/
structure ArtifactRow where
  source     : String
  author     : String
  name       : String
  hash       : String
  pullsCount : Nat
deriving DecidableEq

/-- Row of the `tags` table (`orm/model.go`). -/
structure TagRow where
  source  : String
  author  : String
  name    : String
  hash    : String
  tagName : String
deriving DecidableEq

/-- State of the metadata store: the two persisted tables. -/
structure MetaDB where
  artifacts : List ArtifactRow
  tags      : List TagRow
deriving DecidableEq

/-- Typed error taxonomy of the `orm` layer (`part_009`): `NotFoundError`,
`ConflictError`, `BadInputError`, `DatabaseError`. `wrapErrorWithDetails`
maps `gorm.ErrRecordNotFound` to `notFound` and `gorm.ErrDuplicatedKey`
(the connection is opened with `TranslateError: true`, `orm/init.go`) to
`conflict`. -/
inductive MetaErr where
  | notFound
  | conflict
  | badInput
  | database
deriving DecidableEq

/-- An `orm.Artifact` value with its `Tags` association preloaded, as
returned by `GetArtifactMetaByHash`. -/
structure ArtifactMeta where
  row  : ArtifactRow
  tags : List TagRow
deriving DecidableEq

/-- Does the artifact row match the primary key `(fqn, hash)`?
GORM builds the `Where` condition from the non-zero struct fields. -/
def artMatch (fqn : FQN) (hash : String) (r : ArtifactRow) : Bool :=
  r.source == fqn.source && r.author == fqn.author && r.name == fqn.name &&
    r.hash == hash

/-- Does the tag row match `(fqn, tag_name)`? The `Hash` field is zero in
the query struct, so GORM omits it from the condition. -/
def tagNameMatch (fqn : FQN) (tag : String) (t : TagRow) : Bool :=
  t.source == fqn.source && t.author == fqn.author && t.name == fqn.name &&
    t.tagName == tag

/-- Does the tag row reference the artifact row? This is the foreign key
`Source,Author,Name,Hash` used to preload `Tags`. -/
def tagRefMatch (r : ArtifactRow) (t : TagRow) : Bool :=
  t.source == r.source && t.author == r.author && t.name == r.name &&
    t.hash == r.hash

/-- Is any FQN component empty? Shared prelude of the `orm` input checks. -/
def fqnIncomplete (fqn : FQN) : Bool :=
  fqn.source == "" || fqn.author == "" || fqn.name == ""

/-! ### Metadata store operations (`orm/metadata.go`)

Each operation is translated from the corresponding Go function, with the
GORM primitives given their standard semantics: `First` returns
`ErrRecordNotFound` when no row matches; `Create` returns
`ErrDuplicatedKey` when a row with the same primary key exists
(`TranslateError: true`); `Delete` removes the matching rows and reports
no error when none match. A transaction rolls back on error, which the
`Except` return models by discarding the intermediate state. -/

/-- Translation of `DB.GetArtifactMetaByHash`. -/
def getArtifactMetaByHash (db : MetaDB) (fqn : FQN) (hash : String) :
    Except MetaErr ArtifactMeta :=
  if hash == "" || fqnIncomplete fqn then .error .badInput
  else
    match db.artifacts.find? (artMatch fqn hash) with
    | none => .error .notFound
    | some r => .ok ⟨r, db.tags.filter (tagRefMatch r)⟩

/-- Translation of `DB.GetArtifactMetaByTag`. -/
def getArtifactMetaByTag (db : MetaDB) (fqn : FQN) (tag : String) :
    Except MetaErr ArtifactMeta :=
  if tag == "" || fqnIncomplete fqn then .error .badInput
  else
    match db.tags.find? (tagNameMatch fqn tag) with
    | none => .error .notFound
    | some t => getArtifactMetaByHash db fqn t.hash

/-- Translation of `DB.IncreasePullCount`: fetch the row, bump
`PullsCount`, save. The underlying GORM `Save` can itself fail; `saveOk`
injects that outcome (as `failAt` does for the pull send loop): with
`saveOk = false` the save's error is wrapped by `wrapErrorWithDetails`
into a database error and no row is updated. -/
def increasePullCount (db : MetaDB) (fqn : FQN) (hash : String)
    (saveOk : Bool) : Except MetaErr MetaDB :=
  match getArtifactMetaByHash db fqn hash with
  | .error e => .error e
  | .ok _ =>
    if saveOk then
      .ok { db with artifacts := db.artifacts.map (fun r =>
        if artMatch fqn hash r then { r with pullsCount := r.pullsCount + 1 }
        else r) }
    else .error .database

/-- Translation of the unexported `DB.addTag`: delete any existing tag row
for `(fqn, tag_name)`, then create the new row pointing at `versionHash`.
The create's duplicate-key check is kept faithful although unreachable
after the delete. -/
def addTagMeta (db : MetaDB) (fqn : FQN) (versionHash tag : String) :
    Except MetaErr MetaDB :=
  let remaining := db.tags.filter (fun t => !tagNameMatch fqn tag t)
  let newRow : TagRow := ⟨fqn.source, fqn.author, fqn.name, versionHash, tag⟩
  if remaining.any (· == newRow) then .error .conflict
  else .ok { db with tags := newRow :: remaining }

/-- Translation of the exported `DB.AddTag`: input checks, existence check
of the artifact `(fqn, hash)` (`NotFound` when absent), then `addTag`. -/
def addTagPublic (db : MetaDB) (fqn : FQN) (versionHash tag : String) :
    Except MetaErr MetaDB :=
  if versionHash == "" || tag == "" || fqnIncomplete fqn then .error .badInput
  else if (db.artifacts.filter (artMatch fqn versionHash)).length == 0 then
    .error .notFound
  else addTagMeta db fqn versionHash tag

/-- Translation of `DB.RemoveTag`: input checks, then a GORM `Delete` of
the tag rows matching `(fqn, tag_name)`. The delete reports no error when
no row matches. -/
def removeTagMeta (db : MetaDB) (fqn : FQN) (tag : String) :
    Except MetaErr MetaDB :=
  if tag == "" || fqnIncomplete fqn then .error .badInput
  else .ok { db with tags := db.tags.filter (fun t => !tagNameMatch fqn tag t) }

/-- Tag-insertion loop of `DB.CreateArtifactMeta`, run inside the
transaction; the first error aborts (and the caller rolls back). -/
def createTagsTx (db : MetaDB) (fqn : FQN) (versionHash : String) :
    List String → Except MetaErr MetaDB
  | [] => .ok db
  | t :: ts =>
    match addTagMeta db fqn versionHash t with
    | .error e => .error e
    | .ok db' => createTagsTx db' fqn versionHash ts

/-- Translation of `DB.CreateArtifactMeta`: input checks, then one
transaction inserting the artifact row (duplicate key is a `conflict`)
followed by the initial tag rows; any error rolls the whole
transaction back. -/
def createArtifactMeta (db : MetaDB) (fqn : FQN) (versionHash : String)
    (tags : List String) : Except MetaErr MetaDB :=
  if versionHash == "" || fqnIncomplete fqn then .error .badInput
  else if db.artifacts.any (artMatch fqn versionHash) then .error .conflict
  else
    createTagsTx
      { db with artifacts :=
          ⟨fqn.source, fqn.author, fqn.name, versionHash, 0⟩ :: db.artifacts }
      fqn versionHash tags

/-- Translation of `DB.DeleteArtifactMeta`: input checks, then a GORM
`Delete` of the artifact row; the `OnDelete:CASCADE` constraint on the
`Tags` association removes the referencing tag rows. Reports no error when
no row matches. This function has no caller in the service facade. -/
def deleteArtifactMeta (db : MetaDB) (fqn : FQN) (versionHash : String) :
    Except MetaErr MetaDB :=
  if versionHash == "" || fqnIncomplete fqn then .error .badInput
  else
    .ok { artifacts := db.artifacts.filter (fun r => !artMatch fqn versionHash r),
          tags := db.tags.filter (fun t =>
            !(t.source == fqn.source && t.author == fqn.author &&
              t.name == fqn.name && t.hash == versionHash)) }

/-! ### Filesystem blob backend
(`registry/filesystemRegistry/registry.go`, the `FullyQualifiedName`
variant at lines 249-382) -/

/-- Error of the filesystem backend: `ErrArtifactNotFound` on a missing
read; plain wrapped I/O errors otherwise (in particular `DeleteArtifact`
wraps the `os.Remove` failure on a missing file without a typed
not-found). -/
inductive FsErr where
  | artifactNotFound
  | ioError
deriving DecidableEq

/-- State of the filesystem backend: base directory and the stored files
as an association list from path to bytes. -/
structure FSReg where
  baseDir : String
  files   : List (String × List Nat)
deriving DecidableEq

/-- Translation of `getArtifactPath`:
`<base>/<source>/<author>/<name>/<hash>.wasm`. -/
def artifactPath (baseDir : String) (fqn : FQN) (versionHash : String) :
    String :=
  baseDir ++ "/" ++ fqn.source ++ "/" ++ fqn.author ++ "/" ++ fqn.name ++
    "/" ++ versionHash ++ ".wasm"

/-- Translation of `FilesystemRegistry.StoreArtifact`: the read loop
consumes the upload pipe through a `ChunkSize` buffer, writing every chunk
to a multi-writer feeding both the temp file and the SHA-256 hasher; the
temp file is then renamed to the path derived from the computed hash.
The bytes that reach the file and the hasher are exactly the concatenation
of the chunks read. -/
def storeArtifact (reg : FSReg) (fqn : FQN) (content : List Nat) :
    String × FSReg :=
  let written := (chunksOf ChunkSize content).flatten
  let versionHash := sha256hex written
  let path := artifactPath reg.baseDir fqn versionHash
  (versionHash,
   { reg with files := (path, written) :: reg.files.filter (·.1 != path) })

/-- Translation of `FilesystemRegistry.GetArtifact`: read the file at the
artifact path; a missing file is `ErrArtifactNotFound`. -/
def getArtifactFs (reg : FSReg) (fqn : FQN) (hash : String) :
    Except FsErr (List Nat) :=
  match reg.files.lookup (artifactPath reg.baseDir fqn hash) with
  | some content => .ok content
  | none => .error .artifactNotFound

/-- Translation of `FilesystemRegistry.DeleteArtifact`: `os.Remove` of the
artifact path; removing a missing file is a (generic) I/O error. -/
def deleteArtifactFs (reg : FSReg) (fqn : FQN) (hash : String) :
    Except FsErr FSReg :=
  let path := artifactPath reg.baseDir fqn hash
  if reg.files.any (·.1 == path) then
    .ok { reg with files := reg.files.filter (·.1 != path) }
  else .error .ioError

/-! ### Service facade (`part_003`, `part_005`, `registry/validation.go`)

Errors are `ServiceError` values carrying a gRPC status code and the inner
error; `wrapServiceError` translates the `orm` taxonomy (`NotFoundError` to
`NotFound`, `ConflictError` to `AlreadyExists`, `DatabaseError` and
everything else - including `BadInputError` and the filesystem backend's
plain errors - to `Internal`). -/

/-- Status codes surfaced by the facade. -/
inductive Code where
  | invalidArgument
  | notFound
  | alreadyExists
  | unavailable
  | internal
deriving DecidableEq

/-- Inner error recorded in a `ServiceError`. -/
inductive InnerErr where
  | invalidIdentifier
  | emptyTag
  | emptyVersionHash
  | meta (e : MetaErr)
  | io (e : FsErr)
  | noInner
deriving DecidableEq

/-- Translation of `registry.ServiceError`. -/
structure ServiceErr where
  code  : Code
  inner : InnerErr
deriving DecidableEq

/-- Translation of `wrapServiceError` applied to an `orm` error. -/
def wrapMeta (e : MetaErr) : ServiceErr :=
  match e with
  | .notFound => ⟨.notFound, .meta .notFound⟩
  | .conflict => ⟨.alreadyExists, .meta .conflict⟩
  | .badInput => ⟨.internal, .meta .badInput⟩
  | .database => ⟨.internal, .meta .database⟩

/-- Translation of `wrapServiceError` applied to a blob-backend error:
neither variant is an `orm` typed error, so both map to `Internal`. -/
def wrapFs (e : FsErr) : ServiceErr := ⟨.internal, .io e⟩

/-- Translation of `validateFQN` for the `FullyQualifiedName` request
shape used by `part_003` (the file `registry/validation.go` under `src/`
holds the `PackageName` variant of the same check): every component must
be non-empty, otherwise `InvalidArgument`. -/
def validateFQN (fqn : FQN) : Option ServiceErr :=
  if fqnIncomplete fqn then some ⟨.invalidArgument, .invalidIdentifier⟩
  else none

/-- Identifier of the `oneof { version_hash | tag }` in
`ArtifactIdentifier` and `PullArtifactRequest`. -/
inductive Ident where
  | byHash (h : String)
  | byTag (t : String)
deriving DecidableEq

/-- Translation of `validateArtifactIdentifier`: FQN check, then exactly
one non-empty identifier, with distinct inner errors for the empty-hash,
empty-tag and missing cases. -/
def validateArtifactIdentifier (fqn : FQN) (oid : Option Ident) :
    Option ServiceErr :=
  match validateFQN fqn with
  | some e => some e
  | none =>
    match oid with
    | some (.byHash h) =>
      if h == "" then some ⟨.invalidArgument, .emptyVersionHash⟩ else none
    | some (.byTag t) =>
      if t == "" then some ⟨.invalidArgument, .emptyTag⟩ else none
    | none => some ⟨.invalidArgument, .invalidIdentifier⟩

/-- Translation of `validateAddRemoveTagRequest`: FQN check, non-empty
tag, and a non-empty version hash, each with `InvalidArgument`. -/
def validateAddRemoveTagRequest (fqn : FQN) (versionHash tag : String) :
    Option ServiceErr :=
  match validateFQN fqn with
  | some e => some e
  | none =>
    if tag == "" then some ⟨.invalidArgument, .emptyTag⟩
    else if versionHash == "" then some ⟨.invalidArgument, .emptyVersionHash⟩
    else none

/-- Translation of `resolveIdentifier`: validate, then dispatch to
`GetArtifactMetaByHash` or `GetArtifactMetaByTag` and wrap errors. -/
def resolveIdentifier (db : MetaDB) (fqn : FQN) (oid : Option Ident) :
    Except ServiceErr ArtifactMeta :=
  match validateArtifactIdentifier fqn oid with
  | some e => .error e
  | none =>
    match oid with
    | some (.byHash h) =>
      match getArtifactMetaByHash db fqn h with
      | .error e => .error (wrapMeta e)
      | .ok m => .ok m
    | some (.byTag t) =>
      match getArtifactMetaByTag db fqn t with
      | .error e => .error (wrapMeta e)
      | .ok m => .ok m
    | none => .error ⟨.invalidArgument, .invalidIdentifier⟩

/-- Response shape of `proto_gen.Artifact` (the `created` timestamp is
wall time and not modelled). -/
structure ArtifactOut where
  fqn         : FQN
  versionHash : String
  tags        : List String
  pulls       : Nat
deriving DecidableEq

/-- Translation of `tagsToStrings`. -/
def tagsToStrings (tags : List TagRow) : List String := tags.map (·.tagName)

/-- Response built from a resolved `orm.Artifact`. -/
def metaToOut (m : ArtifactMeta) : ArtifactOut :=
  ⟨⟨m.row.source, m.row.author, m.row.name⟩, m.row.hash,
    tagsToStrings m.tags, m.row.pullsCount⟩

/-- Translation of `Server.GetArtifact` (metadata only; the blob store is
not consulted): validate the FQN, resolve the identifier, and convert. -/
def serverGetDB (db : MetaDB) (fqn : FQN) (oid : Option Ident) :
    Except ServiceErr ArtifactOut :=
  match validateFQN fqn with
  | some e => .error e
  | none =>
    match resolveIdentifier db fqn oid with
    | .error e => .error e
    | .ok m => .ok (metaToOut m)

/-- Combined state the server operates on: the injected blob backend and
the metadata store. -/
structure Sys where
  reg : FSReg
  db  : MetaDB
deriving DecidableEq

/-- Translation of `Server.DeleteArtifact` (`part_003` lines 380-433):
validate, resolve the identifier to the artifact row, delete the blob via
the backend, and return the resolved artifact. No metadata operation is
invoked. -/
def serverDelete (sys : Sys) (fqn : FQN) (oid : Option Ident) :
    Except ServiceErr ArtifactOut × Sys :=
  match validateFQN fqn with
  | some e => (.error e, sys)
  | none =>
    match resolveIdentifier sys.db fqn oid with
    | .error e => (.error e, sys)
    | .ok m =>
      match deleteArtifactFs sys.reg fqn m.row.hash with
      | .error e => (.error (wrapFs e), sys)
      | .ok reg' => (.ok (metaToOut m), ⟨reg', sys.db⟩)

/-- Translation of `Server.AddTag`: validate the request, `orm.AddTag`,
then return the artifact looked up by the supplied hash. -/
def serverAddTag (sys : Sys) (fqn : FQN) (versionHash tag : String) :
    Except ServiceErr ArtifactOut × MetaDB :=
  match validateAddRemoveTagRequest fqn versionHash tag with
  | some e => (.error e, sys.db)
  | none =>
    match addTagPublic sys.db fqn versionHash tag with
    | .error e => (.error (wrapMeta e), sys.db)
    | .ok db' =>
      (serverGetDB db' fqn (some (.byHash versionHash)), db')

/-- Translation of `Server.RemoveTag` (`part_003` lines 518-556): validate
the request (which requires a non-empty version hash), `orm.RemoveTag`,
then return the artifact looked up by the supplied hash. -/
def serverRemoveTag (sys : Sys) (fqn : FQN) (versionHash tag : String) :
    Except ServiceErr ArtifactOut × MetaDB :=
  match validateAddRemoveTagRequest fqn versionHash tag with
  | some e => (.error e, sys.db)
  | none =>
    match removeTagMeta sys.db fqn tag with
    | .error e => (.error (wrapMeta e), sys.db)
    | .ok db' =>
      (serverGetDB db' fqn (some (.byHash versionHash)), db')

/-! ### Upload pipeline (`part_003`, `Server.UploadArtifact`)

The client-streaming request is a list of messages: the first must carry
metadata `(FQN, tags)`, the rest content chunks; EOF is the end of the
list. The receive loop writes every chunk into the pipe; the store
goroutine consumes the pipe to EOF, so the blob backend sees the
concatenation of the chunks. A non-content message mid-stream closes the
pipe with an error (the store unwinds, removing its temp file) and fails
the RPC with `InvalidArgument`, leaving both stores untouched. -/

/-- Message of the `UploadArtifact` client stream
(`oneof { metadata; content }`). -/
inductive UploadMsg where
  | metaMsg (fqn : FQN) (tags : List String)
  | contentMsg (data : List Nat)
deriving DecidableEq

/-- Receive loop over the messages after the first: every message must be
a content chunk; a metadata message has `GetContent() == nil` and fails
with `InvalidArgument`. -/
def collectChunks : List UploadMsg → Except ServiceErr (List (List Nat))
  | [] => .ok []
  | .contentMsg d :: rest =>
    match collectChunks rest with
    | .error e => .error e
    | .ok ds => .ok (d :: ds)
  | .metaMsg _ _ :: _ => .error ⟨.invalidArgument, .noInner⟩

/-- Metadata commit of the upload (`orm.StoreArtifactMeta(fqn,
versionHash)` in `part_003`; the function body is not under `src/`).
Modelled from the spec: spec section 4.3 step 7 commits the artifact row
via the metadata `CreateArtifact`; `part_003` passes no tags here and adds
them separately afterwards, so this is `DB.CreateArtifactMeta`
(`orm/metadata.go`) with an empty initial tag list. -/
def storeArtifactMeta (db : MetaDB) (fqn : FQN) (versionHash : String) :
    Except MetaErr MetaDB :=
  createArtifactMeta db fqn versionHash []

/-- Final step of the upload: fetch the stored artifact and answer with
the request's FQN and tag list plus the fetched pull count. -/
def uploadFinish (sys : Sys) (fqn : FQN) (versionHash : String)
    (reqTags : List String) : Except ServiceErr ArtifactOut × Sys :=
  match getArtifactMetaByHash sys.db fqn versionHash with
  | .error e => (.error (wrapMeta e), sys)
  | .ok m => (.ok ⟨fqn, versionHash, reqTags, m.row.pullsCount⟩, sys)

/-- Tag loop of the upload: after the artifact-row commit, each requested
tag is added through the exported `orm.AddTag`, one commit at a time; the
first failure aborts the RPC with the wrapped error and no compensation. -/
def uploadTagsLoop (sys : Sys) (fqn : FQN) (versionHash : String)
    (reqTags : List String) : List String → Except ServiceErr ArtifactOut × Sys
  | [] => uploadFinish sys fqn versionHash reqTags
  | t :: ts =>
    match addTagPublic sys.db fqn versionHash t with
    | .error e => (.error (wrapMeta e), sys)
    | .ok db' => uploadTagsLoop ⟨sys.reg, db'⟩ fqn versionHash reqTags ts

/-- Translation of `Server.UploadArtifact` (`part_003` lines 208-378):
first message must be metadata with a valid FQN; the chunks are piped into
the blob backend's `StoreArtifact`; on blob success the metadata row is
committed (on failure the blob delete compensation is invoked best-effort
and the metadata error surfaced); then the initial tags are added one by
one; finally the stored artifact is fetched and returned. -/
def serverUpload (sys : Sys) : List UploadMsg →
    Except ServiceErr ArtifactOut × Sys
  | [] => (.error ⟨.internal, .noInner⟩, sys)
  | .contentMsg _ :: _ => (.error ⟨.invalidArgument, .noInner⟩, sys)
  | .metaMsg fqn tags :: rest =>
    match validateFQN fqn with
    | some e => (.error e, sys)
    | none =>
      match collectChunks rest with
      | .error e => (.error e, sys)
      | .ok chunks =>
        let content := chunks.flatten
        let stored := storeArtifact sys.reg fqn content
        match storeArtifactMeta sys.db fqn stored.1 with
        | .error e =>
          let reg' :=
            match deleteArtifactFs stored.2 fqn stored.1 with
            | .ok r => r
            | .error _ => stored.2
          (.error (wrapMeta e), ⟨reg', sys.db⟩)
        | .ok db1 => uploadTagsLoop ⟨stored.2, db1⟩ fqn stored.1 tags tags

/-! ### Download pipeline (`part_003`, `Server.PullArtifact`) -/

deriving instance DecidableEq for Except

/-- Outcome of a pull RPC: the chunks delivered to the client in order,
the RPC result, and the metadata store afterwards. -/
structure PullRes where
  sent   : List (List Nat)
  result : Except ServiceErr Unit
  db     : MetaDB
deriving DecidableEq

/-- Send loop: delivers the chunks in order; `failAt = some n` makes the
send of the chunk at index `n` fail, stopping the loop. The second
component tells whether every send succeeded. -/
def sendChunks : Option Nat → List (List Nat) → List (List Nat) × Bool
  | _, [] => ([], true)
  | some 0, _ :: _ => ([], false)
  | some (n + 1), c :: cs =>
    let r := sendChunks (some n) cs
    (c :: r.1, r.2)
  | none, c :: cs =>
    let r := sendChunks none cs
    (c :: r.1, r.2)

/-- Streaming tail of the pull: fetch the blob, send it in `ChunkSize`
chunks; a send error stops the RPC with the error and without touching the
pull counter; after full success `IncreasePullCount` runs best-effort
(`saveOk` injects the outcome of its database save): on its failure the
error is only logged at WARN and the RPC still returns success. -/
def pullStream (sys : Sys) (fqn : FQN) (m : ArtifactMeta)
    (failAt : Option Nat) (saveOk : Bool) : PullRes :=
  match getArtifactFs sys.reg fqn m.row.hash with
  | .error e => ⟨[], .error (wrapFs e), sys.db⟩
  | .ok content =>
    let sr := sendChunks failAt (chunksOf ChunkSize content)
    if sr.2 then
      let db' :=
        match increasePullCount sys.db fqn m.row.hash saveOk with
        | .ok d => d
        | .error _ => sys.db
      ⟨sr.1, .ok (), db'⟩
    else ⟨sr.1, .error ⟨.internal, .noInner⟩, sys.db⟩

/-- Translation of `Server.PullArtifact` (`part_003` lines 79-206):
validate the FQN and the identifier (distinct `InvalidArgument` errors for
empty hash, empty tag and missing identifier), resolve to the artifact
row, then stream. `failAt` injects a send failure, `saveOk` the outcome of
the pull-count save. -/
def serverPull (sys : Sys) (fqn : FQN) (oid : Option Ident)
    (failAt : Option Nat) (saveOk : Bool) : PullRes :=
  match validateFQN fqn with
  | some e => ⟨[], .error e, sys.db⟩
  | none =>
    match oid with
    | none => ⟨[], .error ⟨.invalidArgument, .invalidIdentifier⟩, sys.db⟩
    | some (.byHash h) =>
      if h == "" then ⟨[], .error ⟨.invalidArgument, .emptyVersionHash⟩, sys.db⟩
      else
        match getArtifactMetaByHash sys.db fqn h with
        | .error e => ⟨[], .error (wrapMeta e), sys.db⟩
        | .ok m => pullStream sys fqn m failAt saveOk
    | some (.byTag t) =>
      if t == "" then ⟨[], .error ⟨.invalidArgument, .emptyTag⟩, sys.db⟩
      else
        match getArtifactMetaByTag sys.db fqn t with
        | .error e => ⟨[], .error (wrapMeta e), sys.db⟩
        | .ok m => pullStream sys fqn m failAt saveOk

/-! ### Lemmas about the chunked streaming -/

theorem chunksGo_flatten {cs : Nat} (hcs : 0 < cs) :
    ∀ (fuel : Nat) (l : List α), l.length ≤ fuel →
      (chunksGo cs fuel l).flatten = l := by
  intro fuel
  induction fuel with
  | zero =>
    intro l hl
    cases l with
    | nil => rfl
    | cons x xs => simp at hl
  | succ f ih =>
    intro l hl
    cases l with
    | nil => rfl
    | cons x xs =>
      show ((x :: xs).take cs :: chunksGo cs f ((x :: xs).drop cs)).flatten
        = x :: xs
      rw [List.flatten_cons, ih ((x :: xs).drop cs) ?_, List.take_append_drop]
      rw [List.length_drop]
      simp only [List.length_cons] at hl ⊢
      omega

theorem chunksOf_flatten {cs : Nat} (hcs : 0 < cs) (l : List α) :
    (chunksOf cs l).flatten = l :=
  chunksGo_flatten hcs l.length l le_rfl

theorem chunksGo_length {cs : Nat} (hcs : 0 < cs) :
    ∀ (fuel : Nat) (l : List α), l.length ≤ fuel →
      (chunksGo cs fuel l).length = (l.length + cs - 1) / cs := by
  intro fuel
  induction fuel with
  | zero =>
    intro l hl
    cases l with
    | nil =>
      show 0 = (0 + cs - 1) / cs
      rw [Nat.zero_add, Nat.div_eq_of_lt (by omega)]
    | cons x xs => simp at hl
  | succ f ih =>
    intro l hl
    cases l with
    | nil =>
      show 0 = (0 + cs - 1) / cs
      rw [Nat.zero_add, Nat.div_eq_of_lt (by omega)]
    | cons x xs =>
      show ((x :: xs).take cs :: chunksGo cs f ((x :: xs).drop cs)).length
        = ((x :: xs).length + cs - 1) / cs
      rw [List.length_cons, ih ((x :: xs).drop cs) ?_]
      · rw [List.length_drop]
        rcases Nat.le_total (x :: xs).length cs with hle | hge
        · have h1 : (x :: xs).length - cs = 0 := by omega
          rw [h1]
          have h2 : (0 + cs - 1) / cs = 0 := by
            rw [Nat.zero_add, Nat.div_eq_of_lt (by omega)]
          rw [h2]
          have h3 : (x :: xs).length + cs - 1 = ((x :: xs).length - 1) + cs := by
            have : 0 < (x :: xs).length := by simp
            omega
          rw [h3, Nat.add_div_right _ hcs, Nat.div_eq_of_lt (by
            have : 0 < (x :: xs).length := by simp
            omega)]
        · have h1 : (x :: xs).length - cs + cs - 1 = (x :: xs).length - 1 := by
            omega
          have h3 : (x :: xs).length + cs - 1 = ((x :: xs).length - 1) + cs := by
            have : 0 < (x :: xs).length := by simp
            omega
          rw [h1, h3, Nat.add_div_right _ hcs]
      · rw [List.length_drop]
        simp only [List.length_cons] at hl ⊢
        omega

theorem chunksOf_length {cs : Nat} (hcs : 0 < cs) (l : List α) :
    (chunksOf cs l).length = (l.length + cs - 1) / cs :=
  chunksGo_length hcs l.length l le_rfl

theorem chunksGo_mem_shape {cs : Nat} (hcs : 0 < cs) :
    ∀ (fuel : Nat) (l : List α), l.length ≤ fuel →
      ∀ c ∈ chunksGo cs fuel l, c.length ≤ cs ∧ c ≠ [] := by
  intro fuel
  induction fuel with
  | zero =>
    intro l hl c hc
    cases l with
    | nil => simp [chunksGo] at hc
    | cons x xs => simp at hl
  | succ f ih =>
    intro l hl c hc
    cases l with
    | nil => simp [chunksGo] at hc
    | cons x xs =>
      have hstep : chunksGo cs (f + 1) (x :: xs)
          = (x :: xs).take cs :: chunksGo cs f ((x :: xs).drop cs) := rfl
      rw [hstep, List.mem_cons] at hc
      rcases hc with hc | hc
      · subst hc
        constructor
        · rw [List.length_take]; omega
        · cases cs with
          | zero => omega
          | succ m => simp [List.take]
      · exact ih ((x :: xs).drop cs) (by
          rw [List.length_drop]
          simp only [List.length_cons] at hl ⊢
          omega) c hc

theorem chunksOf_mem_shape {cs : Nat} (hcs : 0 < cs) (l : List α) :
    ∀ c ∈ chunksOf cs l, c.length ≤ cs ∧ c ≠ [] :=
  chunksGo_mem_shape hcs l.length l le_rfl

theorem chunksGo_dropLast_length {cs : Nat} (hcs : 0 < cs) :
    ∀ (fuel : Nat) (l : List α), l.length ≤ fuel →
      ∀ c ∈ (chunksGo cs fuel l).dropLast, c.length = cs := by
  intro fuel
  induction fuel with
  | zero =>
    intro l hl c hc
    cases l with
    | nil => simp [chunksGo] at hc
    | cons x xs => simp at hl
  | succ f ih =>
    intro l hl c hc
    cases l with
    | nil => simp [chunksGo] at hc
    | cons x xs =>
      have hstep : chunksGo cs (f + 1) (x :: xs)
          = (x :: xs).take cs :: chunksGo cs f ((x :: xs).drop cs) := rfl
      rw [hstep] at hc
      cases hrest : chunksGo cs f ((x :: xs).drop cs) with
      | nil => rw [hrest] at hc; simp at hc
      | cons r rs =>
        rw [hrest] at hc
        rw [List.dropLast_cons₂, List.mem_cons] at hc
        have hdrop : (x :: xs).drop cs ≠ [] := by
          intro hdn
          rw [hdn] at hrest
          simp [chunksGo] at hrest
        have hlen : cs < (x :: xs).length := by
          by_contra hno
          exact hdrop (List.drop_eq_nil_of_le (by omega))
        rcases hc with hc | hc
        · subst hc
          rw [List.length_take]
          omega
        · have := ih ((x :: xs).drop cs) (by
            rw [List.length_drop]
            simp only [List.length_cons] at hl ⊢
            omega) c
          rw [hrest] at this
          exact this hc

theorem chunksOf_dropLast_length {cs : Nat} (hcs : 0 < cs) (l : List α) :
    ∀ c ∈ (chunksOf cs l).dropLast, c.length = cs :=
  chunksGo_dropLast_length hcs l.length l le_rfl

theorem sendChunks_none (l : List (List Nat)) :
    sendChunks none l = (l, true) := by
  induction l with
  | nil => rfl
  | cons c cs ih => simp [sendChunks, ih]

theorem sendChunks_some_lt :
    ∀ (n : Nat) (l : List (List Nat)), n < l.length →
      sendChunks (some n) l = (l.take n, false) := by
  intro n
  induction n with
  | zero =>
    intro l hl
    cases l with
    | nil => simp at hl
    | cons c cs => rfl
  | succ m ih =>
    intro l hl
    cases l with
    | nil => simp at hl
    | cons c cs =>
      simp only [List.length_cons] at hl
      simp [sendChunks, ih cs (by omega)]

/-! ### Lemmas about the hash and its encoding -/

theorem length_flatMap_byteHex (l : List Nat) :
    (l.flatMap byteHex).length = 2 * l.length := by
  induction l with
  | nil => rfl
  | cons b bs ih => simp [byteHex, ih]; omega

theorem length_sha256 (msg : List Nat) : (sha256 msg).length = 32 := by
  simp [sha256, wordBytes]

theorem length_sha256hex (msg : List Nat) : (sha256hex msg).length = 64 := by
  show (String.mk ((sha256 msg).flatMap byteHex)).length = 64
  show ((sha256 msg).flatMap byteHex).length = 64
  rw [length_flatMap_byteHex, length_sha256]

theorem sha256hex_ne_empty (msg : List Nat) : sha256hex msg ≠ "" := by
  intro h
  have := length_sha256hex msg
  rw [h] at this
  simp at this

theorem hexChar_mem (k : Nat) : hexChar k ∈ hexDigits := by
  unfold hexChar
  by_cases hk : k < hexDigits.length
  · rw [List.getD_eq_getElem hexDigits '0' hk]
    exact List.getElem_mem hk
  · rw [List.getD_eq_default hexDigits '0' (le_of_not_lt hk)]
    decide

theorem sha256hex_lowercase (msg : List Nat) :
    ∀ c ∈ (sha256hex msg).data, c ∈ hexDigits := by
  intro c hc
  have hc' : c ∈ (sha256 msg).flatMap byteHex := hc
  rw [List.mem_flatMap] at hc'
  obtain ⟨b, _, hcb⟩ := hc'
  simp only [byteHex, List.mem_cons, List.mem_singleton] at hcb
  rcases hcb with h | h | h
  · rw [h]; exact hexChar_mem _
  · rw [h]; exact hexChar_mem _
  · exact absurd h (by simp)

/-! ### Lemmas about the association-list filesystem -/

theorem lookup_eq_none_of_all {β : Type} (a : String)
    (l : List (String × β)) (h : ∀ kv ∈ l, (a == kv.1) = false) :
    l.lookup a = none := by
  induction l with
  | nil => rfl
  | cons kv t ih =>
    have hk := h kv (List.mem_cons_self _ _)
    simp only [List.lookup, hk]
    exact ih (fun kv' hkv' => h kv' (List.mem_cons_of_mem _ hkv'))

theorem ChunkSize_pos : 0 < ChunkSize := by norm_num [ChunkSize]

/-! ### Claim theorems -/

/-- C2: for every FQN and byte sequence, the filesystem backend's
`StoreArtifact` returns the lowercase hex SHA-256 of exactly the bytes it
consumed (64 lowercase hex characters), and a subsequent `GetArtifact`
with that FQN and the returned hash yields exactly the stored content. -/
theorem c2_store_hash_roundtrip (bd : String)
    (files : List (String × List Nat)) (fqn : FQN) (content : List Nat) :
    (storeArtifact ⟨bd, files⟩ fqn content).1 = sha256hex content ∧
    (storeArtifact ⟨bd, files⟩ fqn content).1.length = 64 ∧
    (∀ c ∈ (storeArtifact ⟨bd, files⟩ fqn content).1.data, c ∈ hexDigits) ∧
    getArtifactFs (storeArtifact ⟨bd, files⟩ fqn content).2 fqn
      (storeArtifact ⟨bd, files⟩ fqn content).1 = .ok content := by
  have hw : (chunksOf ChunkSize content).flatten = content :=
    chunksOf_flatten ChunkSize_pos content
  have h1 : (storeArtifact ⟨bd, files⟩ fqn content).1 = sha256hex content := by
    simp only [storeArtifact, hw]
  refine ⟨h1, ?_, ?_, ?_⟩
  · rw [h1]; exact length_sha256hex content
  · rw [h1]; exact sha256hex_lowercase content
  · simp only [storeArtifact, getArtifactFs, hw, List.lookup]
    simp

set_option maxRecDepth 10000 in
/-- C1 (code bug): at a concrete input the Delete operation succeeds and
removes the blob, but the Artifact metadata row and the Tag row referencing
it survive, and a subsequent Get by hash still returns the artifact: the
facade's `DeleteArtifact` never invokes the metadata delete
(`DB.DeleteArtifactMeta` has no caller), contradicting the claim and the
repository's own integration test `TestDeleteArtifact`. -/
theorem c1_delete_leaves_metadata_and_tags :
    (serverDelete
        (serverUpload ⟨⟨"data", []⟩, ⟨[], []⟩⟩
          [.metaMsg ⟨"github", "alice", "app"⟩ ["v1"],
           .contentMsg [1, 2, 3]]).2
        ⟨"github", "alice", "app"⟩
        (some (.byHash (sha256hex [1, 2, 3])))).1
      = .ok ⟨⟨"github", "alice", "app"⟩, sha256hex [1, 2, 3], ["v1"], 0⟩ ∧
    (serverDelete
        (serverUpload ⟨⟨"data", []⟩, ⟨[], []⟩⟩
          [.metaMsg ⟨"github", "alice", "app"⟩ ["v1"],
           .contentMsg [1, 2, 3]]).2
        ⟨"github", "alice", "app"⟩
        (some (.byHash (sha256hex [1, 2, 3])))).2.db.artifacts
      = [⟨"github", "alice", "app", sha256hex [1, 2, 3], 0⟩] ∧
    (serverDelete
        (serverUpload ⟨⟨"data", []⟩, ⟨[], []⟩⟩
          [.metaMsg ⟨"github", "alice", "app"⟩ ["v1"],
           .contentMsg [1, 2, 3]]).2
        ⟨"github", "alice", "app"⟩
        (some (.byHash (sha256hex [1, 2, 3])))).2.db.tags
      = [⟨"github", "alice", "app", sha256hex [1, 2, 3], "v1"⟩] ∧
    serverGetDB
        (serverDelete
          (serverUpload ⟨⟨"data", []⟩, ⟨[], []⟩⟩
            [.metaMsg ⟨"github", "alice", "app"⟩ ["v1"],
             .contentMsg [1, 2, 3]]).2
          ⟨"github", "alice", "app"⟩
          (some (.byHash (sha256hex [1, 2, 3])))).2.db
        ⟨"github", "alice", "app"⟩ (some (.byHash (sha256hex [1, 2, 3])))
      = .ok ⟨⟨"github", "alice", "app"⟩, sha256hex [1, 2, 3], ["v1"], 0⟩ ∧
    getArtifactFs
        (serverDelete
          (serverUpload ⟨⟨"data", []⟩, ⟨[], []⟩⟩
            [.metaMsg ⟨"github", "alice", "app"⟩ ["v1"],
             .contentMsg [1, 2, 3]]).2
          ⟨"github", "alice", "app"⟩
          (some (.byHash (sha256hex [1, 2, 3])))).2.reg
        ⟨"github", "alice", "app"⟩ (sha256hex [1, 2, 3])
      = .error .artifactNotFound := by
  decide

set_option maxRecDepth 10000 in
/-- C8 (code bug): removing a tag that does not exist succeeds instead of
returning NotFound: `DB.RemoveTag` issues a GORM `Delete`, which reports no
error when zero rows match, so the RPC answers with the artifact and no
error. This contradicts the claim and the repository's own integration
test `TestDeleteTagThatDoesNotExist`. The first conjunct shows the
tag row is indeed absent at the failing input. -/
theorem c8_remove_missing_tag_succeeds :
    ((serverUpload ⟨⟨"data", []⟩, ⟨[], []⟩⟩
        [.metaMsg ⟨"github", "alice", "app"⟩ [],
         .contentMsg [1, 2, 3]]).2.db.tags.find?
      (tagNameMatch ⟨"github", "alice", "app"⟩ "missing") = none) ∧
    (serverRemoveTag
        (serverUpload ⟨⟨"data", []⟩, ⟨[], []⟩⟩
          [.metaMsg ⟨"github", "alice", "app"⟩ [],
           .contentMsg [1, 2, 3]]).2
        ⟨"github", "alice", "app"⟩ (sha256hex [1, 2, 3]) "missing").1
      = .ok ⟨⟨"github", "alice", "app"⟩, sha256hex [1, 2, 3], [], 0⟩ := by
  decide

set_option maxRecDepth 10000 in
/-- C3 (counterexample): a second upload of identical bytes under the same
FQN does return an error: the first upload succeeds with the content hash,
and the repeated metadata commit hits the duplicate Artifact primary key,
which `wrapErrorWithDetails` turns into a `ConflictError` and the facade
surfaces as `AlreadyExists`; it does not collapse to a no-op. -/
theorem c3_counterexample_second_upload_errors :
    (serverUpload ⟨⟨"data", []⟩, ⟨[], []⟩⟩
        [.metaMsg ⟨"github", "alice", "app"⟩ ["v1"], .contentMsg [7]]).1
      = .ok ⟨⟨"github", "alice", "app"⟩, sha256hex [7], ["v1"], 0⟩ ∧
    (serverUpload
        (serverUpload ⟨⟨"data", []⟩, ⟨[], []⟩⟩
          [.metaMsg ⟨"github", "alice", "app"⟩ ["v1"], .contentMsg [7]]).2
        [.metaMsg ⟨"github", "alice", "app"⟩ ["v1"], .contentMsg [7]]).1
      = .error ⟨.alreadyExists, .meta .conflict⟩ := by
  decide

set_option maxRecDepth 10000 in
/-- C4 (counterexample): the Artifact row and the initial Tag rows do not
commit together. Uploading with initial tags `["v1", ""]` fails while
adding the second tag (after the artifact row was committed on its own and
the first tag in a separate commit): the error is surfaced, yet the state
keeps the Artifact row with only part of its initial tags, and the blob is
left in place with no compensation. -/
theorem c4_counterexample_partial_tags :
    (serverUpload ⟨⟨"data", []⟩, ⟨[], []⟩⟩
        [.metaMsg ⟨"github", "alice", "app"⟩ ["v1", ""], .contentMsg [5]]).1
      = .error ⟨.internal, .meta .badInput⟩ ∧
    (serverUpload ⟨⟨"data", []⟩, ⟨[], []⟩⟩
        [.metaMsg ⟨"github", "alice", "app"⟩ ["v1", ""],
         .contentMsg [5]]).2.db.artifacts
      = [⟨"github", "alice", "app", sha256hex [5], 0⟩] ∧
    (serverUpload ⟨⟨"data", []⟩, ⟨[], []⟩⟩
        [.metaMsg ⟨"github", "alice", "app"⟩ ["v1", ""],
         .contentMsg [5]]).2.db.tags
      = [⟨"github", "alice", "app", sha256hex [5], "v1"⟩] ∧
    getArtifactFs
        (serverUpload ⟨⟨"data", []⟩, ⟨[], []⟩⟩
          [.metaMsg ⟨"github", "alice", "app"⟩ ["v1", ""],
           .contentMsg [5]]).2.reg
        ⟨"github", "alice", "app"⟩ (sha256hex [5])
      = .ok [5] := by
  decide

/-! ### Lemmas about successful metadata runs -/

theorem fqnIncomplete_eq_false {s a n : String} (hs : s ≠ "") (ha : a ≠ "")
    (hn : n ≠ "") : fqnIncomplete ⟨s, a, n⟩ = false := by
  simp [fqnIncomplete, hs, ha, hn]

theorem validateFQN_none {s a n : String} (hs : s ≠ "") (ha : a ≠ "")
    (hn : n ≠ "") : validateFQN ⟨s, a, n⟩ = none := by
  simp [validateFQN, fqnIncomplete_eq_false hs ha hn]

theorem artMatch_self (s a n h : String) (p : Nat) :
    artMatch ⟨s, a, n⟩ h ⟨s, a, n, h, p⟩ = true := by
  simp [artMatch]

theorem getByHash_singleton {s a n h : String} {p : Nat} {tgs : List TagRow}
    (hs : s ≠ "") (ha : a ≠ "") (hn : n ≠ "") (hh : h ≠ "") :
    getArtifactMetaByHash ⟨[⟨s, a, n, h, p⟩], tgs⟩ ⟨s, a, n⟩ h =
      .ok ⟨⟨s, a, n, h, p⟩, tgs.filter (tagRefMatch ⟨s, a, n, h, p⟩)⟩ := by
  simp [getArtifactMetaByHash, fqnIncomplete_eq_false hs ha hn, hh,
    List.find?, artMatch_self]

theorem addTagPublic_singleton {s a n h t : String} {p : Nat}
    {tgs : List TagRow} (hs : s ≠ "") (ha : a ≠ "") (hn : n ≠ "")
    (hh : h ≠ "") (ht : t ≠ "") :
    addTagPublic ⟨[⟨s, a, n, h, p⟩], tgs⟩ ⟨s, a, n⟩ h t =
      .ok ⟨[⟨s, a, n, h, p⟩],
        ⟨s, a, n, h, t⟩ ::
          tgs.filter (fun x => !tagNameMatch ⟨s, a, n⟩ t x)⟩ := by
  have hany : (tgs.filter (fun x => !tagNameMatch ⟨s, a, n⟩ t x)).any
      (· == (⟨s, a, n, h, t⟩ : TagRow)) = false := by
    rw [List.any_eq_false]
    intro x hx
    obtain ⟨hmem, hflt⟩ := List.mem_filter.mp hx
    intro hbeq
    have hxeq : x = ⟨s, a, n, h, t⟩ := eq_of_beq hbeq
    rw [hxeq] at hflt
    simp [tagNameMatch] at hflt
  simp [addTagPublic, fqnIncomplete_eq_false hs ha hn, hh, ht,
    List.filter, artMatch_self, addTagMeta, hany]

theorem uploadTagsLoop_ok {s a n h : String} {p : Nat} (hs : s ≠ "")
    (ha : a ≠ "") (hn : n ≠ "") (hh : h ≠ "") :
    ∀ (ts : List String) (reg : FSReg) (tgs : List TagRow)
      (reqTags : List String), (∀ t ∈ ts, t ≠ "") →
      (uploadTagsLoop ⟨reg, ⟨[⟨s, a, n, h, p⟩], tgs⟩⟩ ⟨s, a, n⟩ h reqTags
          ts).1 = .ok ⟨⟨s, a, n⟩, h, reqTags, p⟩ ∧
      (uploadTagsLoop ⟨reg, ⟨[⟨s, a, n, h, p⟩], tgs⟩⟩ ⟨s, a, n⟩ h reqTags
          ts).2.reg = reg ∧
      (uploadTagsLoop ⟨reg, ⟨[⟨s, a, n, h, p⟩], tgs⟩⟩ ⟨s, a, n⟩ h reqTags
          ts).2.db.artifacts = [⟨s, a, n, h, p⟩] := by
  intro ts
  induction ts with
  | nil =>
    intro reg tgs reqTags _
    simp [uploadTagsLoop, uploadFinish, getByHash_singleton hs ha hn hh]
  | cons t ts ih =>
    intro reg tgs reqTags hvalid
    have ht : t ≠ "" := hvalid t (List.mem_cons_self _ _)
    have hstep := @addTagPublic_singleton s a n h t p tgs hs ha hn hh ht
    simp only [uploadTagsLoop, hstep]
    exact ih reg _ reqTags (fun u hu => hvalid u (List.mem_cons_of_mem _ hu))

theorem serverUpload_to_loop {s a n bd : String}
    {files : List (String × List Nat)} {tags : List String}
    {rest : List UploadMsg} {chunks : List (List Nat)}
    (hs : s ≠ "") (ha : a ≠ "") (hn : n ≠ "")
    (hcol : collectChunks rest = .ok chunks) :
    serverUpload ⟨⟨bd, files⟩, ⟨[], []⟩⟩
      (.metaMsg ⟨s, a, n⟩ tags :: rest)
      = uploadTagsLoop
          ⟨⟨bd, (artifactPath bd ⟨s, a, n⟩ (sha256hex chunks.flatten),
              chunks.flatten) ::
              files.filter (·.1 !=
                artifactPath bd ⟨s, a, n⟩ (sha256hex chunks.flatten))⟩,
            ⟨[⟨s, a, n, sha256hex chunks.flatten, 0⟩], []⟩⟩
          ⟨s, a, n⟩ (sha256hex chunks.flatten) tags tags := by
  have hH : (sha256hex chunks.flatten == "") = false := by
    rw [beq_eq_false_iff_ne]
    exact sha256hex_ne_empty _
  simp only [serverUpload, validateFQN_none hs ha hn, hcol, storeArtifact,
    chunksOf_flatten ChunkSize_pos, storeArtifactMeta, createArtifactMeta,
    hH, fqnIncomplete_eq_false hs ha hn, List.any_nil, Bool.or_self,
    Bool.or_false, Bool.false_or, createTagsTx]
  simp

theorem serverUpload_fresh_run {s a n bd : String}
    {files : List (String × List Nat)} {tags : List String}
    {rest : List UploadMsg} {chunks : List (List Nat)}
    (hs : s ≠ "") (ha : a ≠ "") (hn : n ≠ "")
    (ht : ∀ t ∈ tags, t ≠ "") (hcol : collectChunks rest = .ok chunks) :
    (serverUpload ⟨⟨bd, files⟩, ⟨[], []⟩⟩
        (.metaMsg ⟨s, a, n⟩ tags :: rest)).1
      = .ok ⟨⟨s, a, n⟩, sha256hex chunks.flatten, tags, 0⟩ ∧
    (serverUpload ⟨⟨bd, files⟩, ⟨[], []⟩⟩
        (.metaMsg ⟨s, a, n⟩ tags :: rest)).2.reg
      = ⟨bd, (artifactPath bd ⟨s, a, n⟩ (sha256hex chunks.flatten),
          chunks.flatten) ::
          files.filter
            (·.1 != artifactPath bd ⟨s, a, n⟩ (sha256hex chunks.flatten))⟩ ∧
    (serverUpload ⟨⟨bd, files⟩, ⟨[], []⟩⟩
        (.metaMsg ⟨s, a, n⟩ tags :: rest)).2.db.artifacts
      = [⟨s, a, n, sha256hex chunks.flatten, 0⟩] := by
  rw [serverUpload_to_loop hs ha hn hcol]
  exact uploadTagsLoop_ok hs ha hn (sha256hex_ne_empty _) tags _ [] tags ht

/-- C10: an upload stream carrying a valid metadata message and then
reaching EOF with zero content chunks succeeds: the empty byte sequence is
stored as a blob and the returned version hash is the SHA-256 of the empty
string. -/
theorem c10_zero_chunk_upload (s a n bd : String)
    (files : List (String × List Nat)) (tags : List String)
    (hs : s ≠ "") (ha : a ≠ "") (hn : n ≠ "")
    (ht : ∀ t ∈ tags, t ≠ "") :
    (serverUpload ⟨⟨bd, files⟩, ⟨[], []⟩⟩ [.metaMsg ⟨s, a, n⟩ tags]).1
      = .ok ⟨⟨s, a, n⟩,
        "e3b0c44298fc1c149afbf4c8996fb92427ae41e4649b934ca495991b7852b855",
        tags, 0⟩ ∧
    getArtifactFs
        (serverUpload ⟨⟨bd, files⟩, ⟨[], []⟩⟩
          [.metaMsg ⟨s, a, n⟩ tags]).2.reg ⟨s, a, n⟩
        "e3b0c44298fc1c149afbf4c8996fb92427ae41e4649b934ca495991b7852b855"
      = .ok [] := by
  have hE : sha256hex [] =
      "e3b0c44298fc1c149afbf4c8996fb92427ae41e4649b934ca495991b7852b855" := by
    decide
  have hrun := @serverUpload_fresh_run s a n bd files tags [] []
    hs ha hn ht rfl
  obtain ⟨h1, h2, h3⟩ := hrun
  simp only [List.flatten_nil, hE] at h1 h2
  refine ⟨h1, ?_⟩
  rw [h2]
  simp [getArtifactFs, List.lookup]

/-- Witness for C10: the hypotheses hold at a concrete valid input and the
upload of a metadata-only stream answers with the empty-string hash. -/
theorem c10_zero_chunk_upload_witness :
    (("github" : String) ≠ "" ∧ ("alice" : String) ≠ "" ∧
      ("app" : String) ≠ "" ∧ (∀ t ∈ ["v1"], t ≠ "")) ∧
    (serverUpload ⟨⟨"data", []⟩, ⟨[], []⟩⟩
        [.metaMsg ⟨"github", "alice", "app"⟩ ["v1"]]).1
      = .ok ⟨⟨"github", "alice", "app"⟩,
        "e3b0c44298fc1c149afbf4c8996fb92427ae41e4649b934ca495991b7852b855",
        ["v1"], 0⟩ :=
  ⟨⟨by decide, by decide, by decide, by decide⟩,
    (c10_zero_chunk_upload "github" "alice" "app" "data" [] ["v1"]
      (by decide) (by decide) (by decide) (by decide)).1⟩

theorem serverUpload_duplicate {s a n : String} {tags : List String}
    {rest : List UploadMsg} {chunks : List (List Nat)} (sys : Sys)
    (hs : s ≠ "") (ha : a ≠ "") (hn : n ≠ "")
    (hcol : collectChunks rest = .ok chunks)
    (hdup : sys.db.artifacts.any
      (artMatch ⟨s, a, n⟩ (sha256hex chunks.flatten)) = true) :
    (serverUpload sys (.metaMsg ⟨s, a, n⟩ tags :: rest)).1
      = .error ⟨.alreadyExists, .meta .conflict⟩ ∧
    (serverUpload sys (.metaMsg ⟨s, a, n⟩ tags :: rest)).2.db = sys.db ∧
    getArtifactFs (serverUpload sys (.metaMsg ⟨s, a, n⟩ tags :: rest)).2.reg
        ⟨s, a, n⟩ (sha256hex chunks.flatten)
      = .error .artifactNotFound := by
  have hH : (sha256hex chunks.flatten == "") = false := by
    rw [beq_eq_false_iff_ne]
    exact sha256hex_ne_empty _
  have hpath : ((artifactPath sys.reg.baseDir ⟨s, a, n⟩
      (sha256hex chunks.flatten) ==
      artifactPath sys.reg.baseDir ⟨s, a, n⟩ (sha256hex chunks.flatten)))
      = true := beq_self_eq_true _
  have hstep : serverUpload sys (.metaMsg ⟨s, a, n⟩ tags :: rest)
      = (.error ⟨.alreadyExists, .meta .conflict⟩,
        ⟨⟨sys.reg.baseDir,
          sys.reg.files.filter (·.1 != artifactPath sys.reg.baseDir
            ⟨s, a, n⟩ (sha256hex chunks.flatten))⟩, sys.db⟩) := by
    simp only [serverUpload, validateFQN_none hs ha hn, hcol, storeArtifact,
      chunksOf_flatten ChunkSize_pos, storeArtifactMeta, createArtifactMeta,
      hH, fqnIncomplete_eq_false hs ha hn, hdup, Bool.or_self, Bool.or_false,
      Bool.false_or, deleteArtifactFs, List.any_cons, hpath, Bool.true_or,
      wrapMeta]
    simp [List.filter_filter]
  rw [hstep]
  refine ⟨rfl, rfl, ?_⟩
  show getArtifactFs _ ⟨s, a, n⟩ (sha256hex chunks.flatten)
    = .error .artifactNotFound
  simp only [getArtifactFs]
  rw [lookup_eq_none_of_all]
  intro kv hkv
  obtain ⟨hmem, hflt⟩ := List.mem_filter.mp hkv
  rw [bne_iff_ne] at hflt
  rw [beq_eq_false_iff_ne]
  exact fun hc => hflt (hc ▸ rfl)

/-- C3 (amended): two uploads of identical bytes under the same FQN
compute the same version hash (the blob store's hash is a function of the
content alone), but the second upload does not collapse to a no-op: its
metadata commit hits the duplicate Artifact primary key and surfaces a
duplicate-key Conflict to the client as `AlreadyExists`. -/
theorem c3_amended_same_hash_second_conflicts (s a n bd : String)
    (files : List (String × List Nat)) (content : List Nat)
    (tags : List String) (hs : s ≠ "") (ha : a ≠ "") (hn : n ≠ "")
    (ht : ∀ t ∈ tags, t ≠ "") :
    (serverUpload ⟨⟨bd, files⟩, ⟨[], []⟩⟩
        (.metaMsg ⟨s, a, n⟩ tags :: [.contentMsg content])).1
      = .ok ⟨⟨s, a, n⟩, sha256hex content, tags, 0⟩ ∧
    (serverUpload
        (serverUpload ⟨⟨bd, files⟩, ⟨[], []⟩⟩
          (.metaMsg ⟨s, a, n⟩ tags :: [.contentMsg content])).2
        (.metaMsg ⟨s, a, n⟩ tags :: [.contentMsg content])).1
      = .error ⟨.alreadyExists, .meta .conflict⟩ ∧
    (storeArtifact
        (serverUpload ⟨⟨bd, files⟩, ⟨[], []⟩⟩
          (.metaMsg ⟨s, a, n⟩ tags :: [.contentMsg content])).2.reg
        ⟨s, a, n⟩ content).1
      = (storeArtifact ⟨bd, files⟩ ⟨s, a, n⟩ content).1 := by
  have hcol : collectChunks [UploadMsg.contentMsg content] = .ok [content] :=
    rfl
  have hfl : ([content] : List (List Nat)).flatten = content := by simp
  have h1 := @serverUpload_fresh_run s a n bd files tags
    [UploadMsg.contentMsg content] [content] hs ha hn ht hcol
  obtain ⟨ha1, ha2, ha3⟩ := h1
  simp only [hfl] at ha1 ha2 ha3
  have hdup : (serverUpload ⟨⟨bd, files⟩, ⟨[], []⟩⟩
      (.metaMsg ⟨s, a, n⟩ tags :: [.contentMsg content])).2.db.artifacts.any
      (artMatch ⟨s, a, n⟩ (sha256hex ([content] : List (List Nat)).flatten))
      = true := by
    rw [hfl, ha3]
    simp [artMatch_self]
  have h2 := @serverUpload_duplicate s a n tags
    [UploadMsg.contentMsg content] [content] _ hs ha hn hcol hdup
  obtain ⟨hb1, _, _⟩ := h2
  refine ⟨ha1, hb1, ?_⟩
  simp only [storeArtifact, chunksOf_flatten ChunkSize_pos]

/-- Witness for the amended C3: the hypotheses hold at a concrete input,
where the first upload succeeds and the repeated upload of the same bytes
answers `AlreadyExists`. -/
theorem c3_amended_same_hash_second_conflicts_witness :
    (("github" : String) ≠ "" ∧ ("alice" : String) ≠ "" ∧
      ("app" : String) ≠ "" ∧ (∀ t ∈ ["v1"], t ≠ "")) ∧
    (serverUpload
        (serverUpload ⟨⟨"data", []⟩, ⟨[], []⟩⟩
          (.metaMsg ⟨"github", "alice", "app"⟩ ["v1"] ::
            [.contentMsg [9, 9]])).2
        (.metaMsg ⟨"github", "alice", "app"⟩ ["v1"] ::
          [.contentMsg [9, 9]])).1
      = .error ⟨.alreadyExists, .meta .conflict⟩ :=
  ⟨⟨by decide, by decide, by decide, by decide⟩,
    (c3_amended_same_hash_second_conflicts "github" "alice" "app" "data" []
      [9, 9] ["v1"] (by decide) (by decide) (by decide) (by decide)).2.1⟩

theorem uploadTagsLoop_stops_at_empty {s a n h : String} {p : Nat}
    (hs : s ≠ "") (ha : a ≠ "") (hn : n ≠ "") (hh : h ≠ "") :
    ∀ (ts : List String) (reg : FSReg) (tgs : List TagRow)
      (reqTags : List String), (∀ t ∈ ts, t ≠ "") → ts.Nodup →
      (∀ t ∈ ts, ∀ r ∈ tgs, r.tagName ≠ t) →
      uploadTagsLoop ⟨reg, ⟨[⟨s, a, n, h, p⟩], tgs⟩⟩ ⟨s, a, n⟩ h reqTags
          (ts ++ [""])
        = (.error ⟨.internal, .meta .badInput⟩,
          ⟨reg, ⟨[⟨s, a, n, h, p⟩],
            (ts.map (fun t => (⟨s, a, n, h, t⟩ : TagRow))).reverse ++ tgs⟩⟩)
    := by
  intro ts
  induction ts with
  | nil =>
    intro reg tgs reqTags _ _ _
    simp [uploadTagsLoop, addTagPublic, wrapMeta]
  | cons t ts ih =>
    intro reg tgs reqTags hvalid hnodup hfresh
    have ht : t ≠ "" := hvalid t (List.mem_cons_self _ _)
    have hstep := @addTagPublic_singleton s a n h t p tgs hs ha hn hh ht
    have hfilter : tgs.filter (fun x => !tagNameMatch ⟨s, a, n⟩ t x) = tgs := by
      apply List.filter_eq_self.mpr
      intro x hx
      have hne : (x.tagName == t) = false := by
        rw [beq_eq_false_iff_ne]
        exact hfresh t (List.mem_cons_self _ _) x hx
      simp [tagNameMatch, hne]
    rw [List.cons_append]
    simp only [uploadTagsLoop, hstep, hfilter]
    have hrec := ih reg (⟨s, a, n, h, t⟩ :: tgs) reqTags
      (fun u hu => hvalid u (List.mem_cons_of_mem _ hu))
      (List.Nodup.of_cons hnodup)
      (by
        intro u hu r hr
        rcases List.mem_cons.mp hr with hr | hr
        · rw [hr]
          show t ≠ u
          intro hc
          exact (List.nodup_cons.mp hnodup).1 (hc ▸ hu)
        · exact hfresh u (List.mem_cons_of_mem _ hu) r hr)
    rw [hrec]
    simp [List.append_assoc]

/-- C4 (amended): the upload commit is not atomic over the initial tags.
If the artifact-row insert fails after the blob was persisted, the blob
delete compensation is invoked and the metadata error is surfaced (first
conjunct: the duplicate-row case leaves the metadata untouched and no blob
behind). But the initial Tag rows are committed one at a time after the
Artifact row, so a failure while adding a tag surfaces the error with the
Artifact row already committed, only the tags added so far present, and the
blob left in place without compensation (second conjunct). -/
theorem c4_amended_row_then_tags :
    (∀ (s a n : String) (tags : List String) (rest : List UploadMsg)
      (chunks : List (List Nat)) (sys : Sys),
      s ≠ "" → a ≠ "" → n ≠ "" → collectChunks rest = .ok chunks →
      sys.db.artifacts.any
        (artMatch ⟨s, a, n⟩ (sha256hex chunks.flatten)) = true →
      (serverUpload sys (.metaMsg ⟨s, a, n⟩ tags :: rest)).1
        = .error ⟨.alreadyExists, .meta .conflict⟩ ∧
      (serverUpload sys (.metaMsg ⟨s, a, n⟩ tags :: rest)).2.db = sys.db ∧
      getArtifactFs (serverUpload sys
          (.metaMsg ⟨s, a, n⟩ tags :: rest)).2.reg ⟨s, a, n⟩
          (sha256hex chunks.flatten)
        = .error .artifactNotFound) ∧
    (∀ (s a n bd : String) (files : List (String × List Nat))
      (content : List Nat) (ts : List String),
      s ≠ "" → a ≠ "" → n ≠ "" → (∀ t ∈ ts, t ≠ "") → ts.Nodup →
      (serverUpload ⟨⟨bd, files⟩, ⟨[], []⟩⟩
          (.metaMsg ⟨s, a, n⟩ (ts ++ [""]) :: [.contentMsg content])).1
        = .error ⟨.internal, .meta .badInput⟩ ∧
      (serverUpload ⟨⟨bd, files⟩, ⟨[], []⟩⟩
          (.metaMsg ⟨s, a, n⟩ (ts ++ [""]) ::
            [.contentMsg content])).2.db.artifacts
        = [⟨s, a, n, sha256hex content, 0⟩] ∧
      (serverUpload ⟨⟨bd, files⟩, ⟨[], []⟩⟩
          (.metaMsg ⟨s, a, n⟩ (ts ++ [""]) ::
            [.contentMsg content])).2.db.tags
        = (ts.map (fun t => (⟨s, a, n, sha256hex content, t⟩ : TagRow))
            ).reverse ∧
      getArtifactFs (serverUpload ⟨⟨bd, files⟩, ⟨[], []⟩⟩
          (.metaMsg ⟨s, a, n⟩ (ts ++ [""]) ::
            [.contentMsg content])).2.reg ⟨s, a, n⟩ (sha256hex content)
        = .ok content) := by
  constructor
  · intro s a n tags rest chunks sys hs ha hn hcol hdup
    exact @serverUpload_duplicate s a n tags rest chunks sys hs ha hn hcol
      hdup
  · intro s a n bd files content ts hs ha hn hts hnodup
    have hcol : collectChunks [UploadMsg.contentMsg content]
        = .ok [content] := rfl
    have hfl : ([content] : List (List Nat)).flatten = content := by simp
    have hloopEq := @serverUpload_to_loop s a n bd files (ts ++ [""])
      [UploadMsg.contentMsg content] [content] hs ha hn hcol
    simp only [hfl] at hloopEq
    have hstop := uploadTagsLoop_stops_at_empty (p := 0) hs ha hn
      (sha256hex_ne_empty content) ts
      ⟨bd, (artifactPath bd ⟨s, a, n⟩ (sha256hex content), content) ::
        files.filter (·.1 != artifactPath bd ⟨s, a, n⟩ (sha256hex content))⟩
      [] (ts ++ [""]) hts hnodup
      (fun t _ r hr => absurd hr (List.not_mem_nil r))
    rw [hloopEq, hstop]
    refine ⟨rfl, rfl, by simp, ?_⟩
    simp [getArtifactFs, List.lookup]

/-- Witness for the amended C4: both branches hold at concrete inputs -
the duplicate-row upload surfaces `AlreadyExists` with the blob
compensated away, and the upload whose tag list ends in an invalid tag
fails after having committed the artifact row. -/
theorem c4_amended_row_then_tags_witness :
    ((serverUpload ⟨⟨"d", []⟩,
        ⟨[⟨"g", "u", "p", sha256hex [3], 0⟩], []⟩⟩
        (.metaMsg ⟨"g", "u", "p"⟩ [] :: [.contentMsg [3]])).1
      = .error ⟨.alreadyExists, .meta .conflict⟩) ∧
    ((serverUpload ⟨⟨"d", []⟩, ⟨[], []⟩⟩
        (.metaMsg ⟨"g", "u", "p"⟩ (["v1"] ++ [""]) ::
          [.contentMsg [4]])).1
      = .error ⟨.internal, .meta .badInput⟩) :=
  ⟨(c4_amended_row_then_tags.1 "g" "u" "p" [] [.contentMsg [3]] [[3]]
      ⟨⟨"d", []⟩, ⟨[⟨"g", "u", "p", sha256hex [3], 0⟩], []⟩⟩
      (by decide) (by decide) (by decide) rfl (by decide)).1,
   (c4_amended_row_then_tags.2 "g" "u" "p" "d" [] [4] ["v1"]
      (by decide) (by decide) (by decide) (by decide) (by decide)).1⟩

/-! ### Tag uniqueness invariant (claim C5) -/

/-- Does the tag row carry exactly the key `(s, a, n, t)`? -/
def tagKeyMatch (s a n t : String) (r : TagRow) : Bool :=
  r.source == s && r.author == a && r.name == n && r.tagName == t

/-- At most one Tag row exists for any `(FQN, tag_name)`. -/
def tagsUniqueDB (db : MetaDB) : Prop :=
  ∀ s a n t, db.tags.countP (tagKeyMatch s a n t) ≤ 1

/-- The committed metadata mutations of `orm/metadata.go`. -/
inductive MetaOp where
  | createArtifact (fqn : FQN) (versionHash : String) (tags : List String)
  | deleteArtifact (fqn : FQN) (versionHash : String)
  | addTag (fqn : FQN) (versionHash tag : String)
  | removeTag (fqn : FQN) (tag : String)
  | incPulls (fqn : FQN) (versionHash : String) (saveOk : Bool)

/-- State left by a metadata operation: the new state on success, the old
state when the operation failed (its transaction rolled back). -/
def applyMeta (db : MetaDB) : MetaOp → MetaDB
  | .createArtifact f h ts =>
    match createArtifactMeta db f h ts with
    | .ok d => d
    | .error _ => db
  | .deleteArtifact f h =>
    match deleteArtifactMeta db f h with
    | .ok d => d
    | .error _ => db
  | .addTag f h t =>
    match addTagPublic db f h t with
    | .ok d => d
    | .error _ => db
  | .removeTag f t =>
    match removeTagMeta db f t with
    | .ok d => d
    | .error _ => db
  | .incPulls f h ok =>
    match increasePullCount db f h ok with
    | .ok d => d
    | .error _ => db

theorem countP_filter_le (p q : α → Bool) :
    ∀ l : List α, (l.filter q).countP p ≤ l.countP p := by
  intro l
  induction l with
  | nil => simp
  | cons x xs ih =>
    rw [List.filter_cons]
    by_cases hq : q x = true
    · rw [if_pos hq, List.countP_cons, List.countP_cons]
      cases hp : p x <;> simp [hp] <;> omega
    · rw [if_neg hq, List.countP_cons]
      exact le_trans ih (Nat.le_add_right _ _)

theorem addTagMeta_tagsUnique {db db' : MetaDB} {fqn : FQN} {h t : String}
    (hu : tagsUniqueDB db) (heq : addTagMeta db fqn h t = .ok db') :
    tagsUniqueDB db' := by
  unfold addTagMeta at heq
  by_cases hany : (db.tags.filter (fun x => !tagNameMatch fqn t x)).any
      (· == (⟨fqn.source, fqn.author, fqn.name, h, t⟩ : TagRow)) = true
  · rw [if_pos hany] at heq
    exact absurd heq (by simp)
  · rw [if_neg hany] at heq
    have hdb' : db' = { db with tags :=
        (⟨fqn.source, fqn.author, fqn.name, h, t⟩ ::
          db.tags.filter (fun x => !tagNameMatch fqn t x)) } := by
      cases heq
      rfl
    subst hdb'
    intro s a n tg
    show (( ⟨fqn.source, fqn.author, fqn.name, h, t⟩ ::
      db.tags.filter (fun x => !tagNameMatch fqn t x)).countP
        (tagKeyMatch s a n tg)) ≤ 1
    rw [List.countP_cons]
    by_cases hk :
        tagKeyMatch s a n tg ⟨fqn.source, fqn.author, fqn.name, h, t⟩ = true
    · have hk' : ((fqn.source = s ∧ fqn.author = a) ∧ fqn.name = n) ∧
          t = tg := by
        simpa [tagKeyMatch] using hk
      have h0 : (db.tags.filter
          (fun x => !tagNameMatch fqn t x)).countP (tagKeyMatch s a n tg)
          = 0 := by
        rw [List.countP_eq_zero]
        intro x hx
        obtain ⟨hmem, hflt⟩ := List.mem_filter.mp hx
        intro hpx
        have hx' : ((x.source = s ∧ x.author = a) ∧ x.name = n) ∧
            x.tagName = tg := by simpa [tagKeyMatch] using hpx
        have : tagNameMatch fqn t x = true := by
          simp [tagNameMatch, hx'.1.1.1, hx'.1.1.2, hx'.1.2, hx'.2,
            hk'.1.1.1, hk'.1.1.2, hk'.1.2, hk'.2]
        simp [this] at hflt
      rw [h0, hk]
      simp
    · have hkf : tagKeyMatch s a n tg
          ⟨fqn.source, fqn.author, fqn.name, h, t⟩ = false := by
        simpa using hk
      rw [hkf]
      simp only [Bool.false_eq_true, if_false, Nat.add_zero]
      exact le_trans (countP_filter_le _ _ _) (hu s a n tg)

theorem createTagsTx_tagsUnique :
    ∀ (ts : List String) (db db' : MetaDB) (fqn : FQN) (h : String),
      tagsUniqueDB db → createTagsTx db fqn h ts = .ok db' →
      tagsUniqueDB db' := by
  intro ts
  induction ts with
  | nil =>
    intro db db' fqn h hu heq
    cases heq
    exact hu
  | cons t ts ih =>
    intro db db' fqn h hu heq
    unfold createTagsTx at heq
    cases hstep : addTagMeta db fqn h t with
    | error e => rw [hstep] at heq; exact absurd heq (by simp)
    | ok dbm =>
      rw [hstep] at heq
      exact ih dbm db' fqn h (addTagMeta_tagsUnique hu hstep) heq

/-- C5: every committed metadata operation preserves the invariant that at
most one Tag row exists for any `(FQN, tag_name)`: `addTag` (also when run
for the initial tags inside `CreateArtifactMeta`) deletes any existing row
for the key before inserting the new pointer, and the remaining operations
only remove or leave tag rows. -/
theorem c5_tag_rows_unique (db : MetaDB) (op : MetaOp)
    (hu : tagsUniqueDB db) : tagsUniqueDB (applyMeta db op) := by
  cases op with
  | createArtifact f h ts =>
    show tagsUniqueDB (match createArtifactMeta db f h ts with
      | .ok d => d
      | .error _ => db)
    cases heq : createArtifactMeta db f h ts with
    | error e => exact hu
    | ok d =>
      unfold createArtifactMeta at heq
      by_cases h1 : (h == "" || fqnIncomplete f) = true
      · rw [if_pos h1] at heq; exact absurd heq (by simp)
      · rw [if_neg h1] at heq
        by_cases h2 : db.artifacts.any (artMatch f h) = true
        · rw [if_pos h2] at heq; exact absurd heq (by simp)
        · rw [if_neg h2] at heq
          exact createTagsTx_tagsUnique ts
            ⟨⟨f.source, f.author, f.name, h, 0⟩ :: db.artifacts, db.tags⟩
            d f h (fun s a n t => hu s a n t) heq
  | deleteArtifact f h =>
    show tagsUniqueDB (match deleteArtifactMeta db f h with
      | .ok d => d
      | .error _ => db)
    cases heq : deleteArtifactMeta db f h with
    | error e => exact hu
    | ok d =>
      unfold deleteArtifactMeta at heq
      by_cases h1 : (h == "" || fqnIncomplete f) = true
      · rw [if_pos h1] at heq; exact absurd heq (by simp)
      · rw [if_neg h1] at heq
        cases heq
        intro s a n t
        exact le_trans (countP_filter_le _ _ _) (hu s a n t)
  | addTag f h t =>
    show tagsUniqueDB (match addTagPublic db f h t with
      | .ok d => d
      | .error _ => db)
    cases heq : addTagPublic db f h t with
    | error e => exact hu
    | ok d =>
      unfold addTagPublic at heq
      by_cases h1 : (h == "" || t == "" || fqnIncomplete f) = true
      · rw [if_pos h1] at heq; exact absurd heq (by simp)
      · rw [if_neg h1] at heq
        by_cases h2 : ((db.artifacts.filter (artMatch f h)).length == 0)
            = true
        · rw [if_pos h2] at heq; exact absurd heq (by simp)
        · rw [if_neg h2] at heq
          exact addTagMeta_tagsUnique hu heq
  | removeTag f t =>
    show tagsUniqueDB (match removeTagMeta db f t with
      | .ok d => d
      | .error _ => db)
    cases heq : removeTagMeta db f t with
    | error e => exact hu
    | ok d =>
      unfold removeTagMeta at heq
      by_cases h1 : (t == "" || fqnIncomplete f) = true
      · rw [if_pos h1] at heq; exact absurd heq (by simp)
      · rw [if_neg h1] at heq
        cases heq
        intro s a n tg
        exact le_trans (countP_filter_le _ _ _) (hu s a n tg)
  | incPulls f h ok =>
    show tagsUniqueDB (match increasePullCount db f h ok with
      | .ok d => d
      | .error _ => db)
    cases heq : increasePullCount db f h ok with
    | error e => exact hu
    | ok d =>
      unfold increasePullCount at heq
      cases hget : getArtifactMetaByHash db f h with
      | error e => rw [hget] at heq; exact absurd heq (by simp)
      | ok m =>
        rw [hget] at heq
        by_cases hok : ok = true
        · rw [if_pos hok] at heq
          cases heq
          exact fun s a n t => hu s a n t
        · rw [if_neg hok] at heq
          exact absurd heq (by simp)

/-- Witness for C5: the invariant holds of the empty store and is
preserved by a concrete `AddTag`. -/
theorem c5_tag_rows_unique_witness :
    tagsUniqueDB ⟨[], []⟩ ∧
    tagsUniqueDB (applyMeta ⟨[], []⟩ (.addTag ⟨"g", "u", "p"⟩ "h" "t")) :=
  have h0 : tagsUniqueDB ⟨[], []⟩ := fun s a n t => by simp
  ⟨h0, c5_tag_rows_unique ⟨[], []⟩ (.addTag ⟨"g", "u", "p"⟩ "h" "t") h0⟩

theorem serverPull_singleton {s a n h bd : String} {p : Nat}
    {tgs : List TagRow} {files : List (String × List Nat)}
    {content : List Nat} (hs : s ≠ "") (ha : a ≠ "") (hn : n ≠ "")
    (hh : h ≠ "") (failAt : Option Nat) (saveOk : Bool) :
    serverPull ⟨⟨bd, (artifactPath bd ⟨s, a, n⟩ h, content) :: files⟩,
        ⟨[⟨s, a, n, h, p⟩], tgs⟩⟩ ⟨s, a, n⟩ (some (.byHash h)) failAt saveOk
      = (if (sendChunks failAt (chunksOf ChunkSize content)).2 then
          ⟨(sendChunks failAt (chunksOf ChunkSize content)).1, .ok (),
            if saveOk then ⟨[⟨s, a, n, h, p + 1⟩], tgs⟩
            else ⟨[⟨s, a, n, h, p⟩], tgs⟩⟩
        else
          ⟨(sendChunks failAt (chunksOf ChunkSize content)).1,
            .error ⟨.internal, .noInner⟩, ⟨[⟨s, a, n, h, p⟩], tgs⟩⟩) := by
  have hhb : (h == "") = false := beq_eq_false_iff_ne.mpr hh
  cases saveOk with
  | true =>
    simp only [serverPull, validateFQN_none hs ha hn, hhb,
      @getByHash_singleton s a n h p tgs hs ha hn hh, pullStream,
      getArtifactFs, List.lookup, beq_self_eq_true, increasePullCount,
      artMatch_self, List.map, Bool.false_eq_true, if_false, if_true]
  | false =>
    simp only [serverPull, validateFQN_none hs ha hn, hhb,
      @getByHash_singleton s a n h p tgs hs ha hn hh, pullStream,
      getArtifactFs, List.lookup, beq_self_eq_true, increasePullCount,
      artMatch_self, List.map, Bool.false_eq_true, if_false, if_true]

/-- C6: the pull stream splits the stored blob into chunks of exactly
`ChunkSize = 3 MiB` (every chunk but the last has length 3145728, every
chunk is non-empty and at most 3145728 bytes) and sends them in order, so
that their concatenation is the full blob; a 10 MiB artifact is delivered
in exactly 4 chunks. -/
theorem c6_pull_chunking (s a n h bd : String) (p : Nat)
    (tgs : List TagRow) (files : List (String × List Nat))
    (content : List Nat) (ok : Bool) (hs : s ≠ "") (ha : a ≠ "")
    (hn : n ≠ "") (hh : h ≠ "") :
    (serverPull ⟨⟨bd, (artifactPath bd ⟨s, a, n⟩ h, content) :: files⟩,
        ⟨[⟨s, a, n, h, p⟩], tgs⟩⟩ ⟨s, a, n⟩ (some (.byHash h)) none ok).sent
      = chunksOf ChunkSize content ∧
    (serverPull ⟨⟨bd, (artifactPath bd ⟨s, a, n⟩ h, content) :: files⟩,
        ⟨[⟨s, a, n, h, p⟩], tgs⟩⟩ ⟨s, a, n⟩
        (some (.byHash h)) none ok).sent.flatten = content ∧
    (∀ c ∈ (serverPull ⟨⟨bd, (artifactPath bd ⟨s, a, n⟩ h, content) ::
        files⟩, ⟨[⟨s, a, n, h, p⟩], tgs⟩⟩ ⟨s, a, n⟩
        (some (.byHash h)) none ok).sent.dropLast, c.length = ChunkSize) ∧
    (∀ c ∈ (serverPull ⟨⟨bd, (artifactPath bd ⟨s, a, n⟩ h, content) ::
        files⟩, ⟨[⟨s, a, n, h, p⟩], tgs⟩⟩ ⟨s, a, n⟩
        (some (.byHash h)) none ok).sent, c.length ≤ ChunkSize ∧ c ≠ []) ∧
    ChunkSize = 3145728 ∧
    (content.length = 10485760 →
      (serverPull ⟨⟨bd, (artifactPath bd ⟨s, a, n⟩ h, content) :: files⟩,
        ⟨[⟨s, a, n, h, p⟩], tgs⟩⟩ ⟨s, a, n⟩
        (some (.byHash h)) none ok).sent.length = 4) := by
  have hrun := @serverPull_singleton s a n h bd p tgs files content
    hs ha hn hh none ok
  rw [sendChunks_none] at hrun
  simp only [if_true] at hrun
  rw [hrun]
  refine ⟨rfl, chunksOf_flatten ChunkSize_pos content,
    chunksOf_dropLast_length ChunkSize_pos content,
    chunksOf_mem_shape ChunkSize_pos content, by norm_num [ChunkSize], ?_⟩
  intro hlen
  show (chunksOf ChunkSize content).length = 4
  rw [chunksOf_length ChunkSize_pos, hlen]
  norm_num [ChunkSize]

/-- Witness for C6: the hypotheses hold at a concrete stored blob, whose
pull delivers exactly the chunk split of the content. -/
theorem c6_pull_chunking_witness :
    (("g" : String) ≠ "" ∧ ("u" : String) ≠ "" ∧ ("p" : String) ≠ "" ∧
      ("h" : String) ≠ "") ∧
    (serverPull ⟨⟨"d", [(artifactPath "d" ⟨"g", "u", "p"⟩ "h", [1, 2, 3])]⟩,
        ⟨[⟨"g", "u", "p", "h", 0⟩], []⟩⟩ ⟨"g", "u", "p"⟩
        (some (.byHash "h")) none true).sent
      = chunksOf ChunkSize [1, 2, 3] :=
  ⟨⟨by decide, by decide, by decide, by decide⟩,
    (c6_pull_chunking "g" "u" "p" "h" "d" 0 [] [] [1, 2, 3] true
      (by decide) (by decide) (by decide) (by decide)).1⟩

/-- C7: the pull counter is incremented exactly once and only after every
chunk was sent: a send failure at any chunk index stops the RPC with the
error and leaves the pull count untouched (whatever the save outcome
would have been); a fully successful send with a succeeding save
increments the matching artifact row's count by exactly one and the RPC
succeeds; and when the `IncreasePullCount` save itself fails, the failure
is only logged at WARN and never fails the RPC: the pull still returns
success, with the count unchanged (the best-effort increment is lost). -/
theorem c7_pull_counter (s a n h bd : String) (p : Nat)
    (tgs : List TagRow) (files : List (String × List Nat))
    (content : List Nat) (i : Nat) (hs : s ≠ "") (ha : a ≠ "")
    (hn : n ≠ "") (hh : h ≠ "") :
    (∀ ok : Bool, i < (chunksOf ChunkSize content).length →
      serverPull ⟨⟨bd, (artifactPath bd ⟨s, a, n⟩ h, content) :: files⟩,
          ⟨[⟨s, a, n, h, p⟩], tgs⟩⟩ ⟨s, a, n⟩ (some (.byHash h)) (some i)
          ok
        = ⟨(chunksOf ChunkSize content).take i,
          .error ⟨.internal, .noInner⟩, ⟨[⟨s, a, n, h, p⟩], tgs⟩⟩) ∧
    serverPull ⟨⟨bd, (artifactPath bd ⟨s, a, n⟩ h, content) :: files⟩,
        ⟨[⟨s, a, n, h, p⟩], tgs⟩⟩ ⟨s, a, n⟩ (some (.byHash h)) none true
      = ⟨chunksOf ChunkSize content, .ok (),
        ⟨[⟨s, a, n, h, p + 1⟩], tgs⟩⟩ ∧
    serverPull ⟨⟨bd, (artifactPath bd ⟨s, a, n⟩ h, content) :: files⟩,
        ⟨[⟨s, a, n, h, p⟩], tgs⟩⟩ ⟨s, a, n⟩ (some (.byHash h)) none false
      = ⟨chunksOf ChunkSize content, .ok (),
        ⟨[⟨s, a, n, h, p⟩], tgs⟩⟩ := by
  refine ⟨?_, ?_, ?_⟩
  · intro ok hi
    have hrun := @serverPull_singleton s a n h bd p tgs files content
      hs ha hn hh (some i) ok
    rw [sendChunks_some_lt i _ hi] at hrun
    simpa using hrun
  · have hrun := @serverPull_singleton s a n h bd p tgs files content
      hs ha hn hh none true
    rw [sendChunks_none] at hrun
    simpa using hrun
  · have hrun := @serverPull_singleton s a n h bd p tgs files content
      hs ha hn hh none false
    rw [sendChunks_none] at hrun
    simpa using hrun

/-- Witness for C7: at a concrete one-chunk blob, a send failure at index
0 returns the error with no chunks delivered and the pull count unchanged,
the failure-free pull increments the count once, and a pull whose
increment save fails still succeeds with the count unchanged. -/
theorem c7_pull_counter_witness :
    (0 < (chunksOf ChunkSize [1, 2, 3]).length ∧ ("g" : String) ≠ "") ∧
    serverPull ⟨⟨"d", [(artifactPath "d" ⟨"g", "u", "p"⟩ "h", [1, 2, 3])]⟩,
        ⟨[⟨"g", "u", "p", "h", 0⟩], []⟩⟩ ⟨"g", "u", "p"⟩
        (some (.byHash "h")) (some 0) true
      = ⟨(chunksOf ChunkSize [1, 2, 3]).take 0, .error ⟨.internal, .noInner⟩,
        ⟨[⟨"g", "u", "p", "h", 0⟩], []⟩⟩ ∧
    serverPull ⟨⟨"d", [(artifactPath "d" ⟨"g", "u", "p"⟩ "h", [1, 2, 3])]⟩,
        ⟨[⟨"g", "u", "p", "h", 0⟩], []⟩⟩ ⟨"g", "u", "p"⟩
        (some (.byHash "h")) none true
      = ⟨chunksOf ChunkSize [1, 2, 3], .ok (),
        ⟨[⟨"g", "u", "p", "h", 1⟩], []⟩⟩ ∧
    serverPull ⟨⟨"d", [(artifactPath "d" ⟨"g", "u", "p"⟩ "h", [1, 2, 3])]⟩,
        ⟨[⟨"g", "u", "p", "h", 0⟩], []⟩⟩ ⟨"g", "u", "p"⟩
        (some (.byHash "h")) none false
      = ⟨chunksOf ChunkSize [1, 2, 3], .ok (),
        ⟨[⟨"g", "u", "p", "h", 0⟩], []⟩⟩ :=
  ⟨⟨by decide, by decide⟩,
    (c7_pull_counter "g" "u" "p" "h" "d" 0 [] [] [1, 2, 3] 0
      (by decide) (by decide) (by decide) (by decide)).1 true (by decide),
    (c7_pull_counter "g" "u" "p" "h" "d" 0 [] [] [1, 2, 3] 0
      (by decide) (by decide) (by decide) (by decide)).2.1,
    (c7_pull_counter "g" "u" "p" "h" "d" 0 [] [] [1, 2, 3] 0
      (by decide) (by decide) (by decide) (by decide)).2.2⟩

/-- C9: the RemoveTag RPC requires a non-empty version hash - with an
empty one the request fails `InvalidArgument` (inner `emptyVersionHash`)
before touching the store - even though the removal itself is determined
by `(FQN, tag)` alone; and on the non-empty path the returned Artifact is
the result of looking up the supplied hash after the tag delete. -/
theorem c9_removetag_requires_hash :
    (∀ (s a n tag : String) (sys : Sys), s ≠ "" → a ≠ "" → n ≠ "" →
      tag ≠ "" →
      serverRemoveTag sys ⟨s, a, n⟩ "" tag
        = (.error ⟨.invalidArgument, .emptyVersionHash⟩, sys.db)) ∧
    (∀ (s a n tag hsh : String) (sys : Sys), s ≠ "" → a ≠ "" → n ≠ "" →
      tag ≠ "" → hsh ≠ "" →
      serverRemoveTag sys ⟨s, a, n⟩ hsh tag
        = (serverGetDB ⟨sys.db.artifacts,
            sys.db.tags.filter (fun x => !tagNameMatch ⟨s, a, n⟩ tag x)⟩
            ⟨s, a, n⟩ (some (.byHash hsh)),
          ⟨sys.db.artifacts,
            sys.db.tags.filter (fun x => !tagNameMatch ⟨s, a, n⟩ tag x)⟩))
    := by
  constructor
  · intro s a n tag sys hs ha hn ht
    have htb : (tag == "") = false := beq_eq_false_iff_ne.mpr ht
    simp [serverRemoveTag, validateAddRemoveTagRequest,
      validateFQN_none hs ha hn, htb]
  · intro s a n tag hsh sys hs ha hn ht hhsh
    have htb : (tag == "") = false := beq_eq_false_iff_ne.mpr ht
    have hhb : (hsh == "") = false := beq_eq_false_iff_ne.mpr hhsh
    simp [serverRemoveTag, validateAddRemoveTagRequest,
      validateFQN_none hs ha hn, htb, hhb, removeTagMeta,
      fqnIncomplete_eq_false hs ha hn]

/-- Witness for C9: at a concrete request, an empty version hash is
rejected with `InvalidArgument` and a non-empty one goes through to the
lookup by that hash. -/
theorem c9_removetag_requires_hash_witness :
    (("g" : String) ≠ "" ∧ ("latest" : String) ≠ "" ∧
      ("deadbeef" : String) ≠ "") ∧
    serverRemoveTag ⟨⟨"d", []⟩, ⟨[], []⟩⟩ ⟨"g", "u", "p"⟩ "" "latest"
      = (.error ⟨.invalidArgument, .emptyVersionHash⟩, ⟨[], []⟩) ∧
    serverRemoveTag ⟨⟨"d", []⟩, ⟨[], []⟩⟩ ⟨"g", "u", "p"⟩ "deadbeef"
        "latest"
      = (serverGetDB ⟨[], List.filter
          (fun x => !tagNameMatch ⟨"g", "u", "p"⟩ "latest" x) []⟩
          ⟨"g", "u", "p"⟩ (some (.byHash "deadbeef")), ⟨[], []⟩) :=
  ⟨⟨by decide, by decide, by decide⟩,
    c9_removetag_requires_hash.1 "g" "u" "p" "latest" ⟨⟨"d", []⟩, ⟨[], []⟩⟩
      (by decide) (by decide) (by decide) (by decide),
    c9_removetag_requires_hash.2 "g" "u" "p" "latest" "deadbeef"
      ⟨⟨"d", []⟩, ⟨[], []⟩⟩
      (by decide) (by decide) (by decide) (by decide) (by decide)⟩

end ArtifactRegistry
